import Mathlib

/-!
Verification of the candidate–vacancy matching engine (`matching.py`).

Modelling conventions:
* Python floats are modelled as exact rationals (`ℚ`); `round(x, 2)` is
  modelled as round-half-to-even at two decimal places (`round2`).
* Python values that may be `None`, a string, or some other object are
  modelled by the inductive type `PyText`.
* The external NLTK components (`word_tokenize`, the Spanish+English
  stopword set, `PorterStemmer`) are third-party library code, abstracted
  as the parameter structure `NLP`; `string.punctuation` is the concrete
  Python constant and membership of a token in it is Python substring
  membership, modelled concretely.
* The sentence-transformer embedding model and sklearn's
  `cosine_similarity` are third-party library code, abstracted as the
  parameter structure `SemModel`: `sim req poss` returns the pairwise
  cosine-similarity matrix, or `none` when any step of the embedding
  computation raises (the `except` path of the source).
-/

namespace Vinculacion

/-- A Python value passed where text is expected: `None`, a string, or a
non-string object (the source guards on `isinstance(text, str)`). -/
inductive PyText where
  | pynone : PyText
  | str (s : String) : PyText
  | other : PyText
deriving DecidableEq, Repr

/-- Abstract interface to the NLTK components used by `preprocess_text`:
`word_tokenize` (punkt), the combined Spanish+English stopword set, and
`PorterStemmer.stem`.  These are external library code, not part of the
repository, so they are parameters of the model. -/
structure NLP where
  tokenize : String → List String
  isStopword : String → Bool
  stem : String → String

/-- The Python constant `string.punctuation`. -/
def pythonPunctuation : String := "!\"#$%&\x27()*+,-./:;<=>?@[\\]^_`\x7b|\x7d~"

/-- ASCII lowercasing of one character, modelling Python's `str.lower` on
the ASCII range. -/
def asciiLower (c : Char) : Char :=
  if 65 ≤ c.toNat ∧ c.toNat ≤ 90 then Char.ofNat (c.toNat + 32) else c

/-- Python `text.lower()`. -/
def pyLower (s : String) : String := String.mk (s.data.map asciiLower)

/-- The whitespace characters removed by Python's `str.strip()`. -/
def pyIsSpace (c : Char) : Bool :=
  c = ' ' || c = '\t' || c = '\n' || c = '\x0d' || c = '\x0b' || c = '\x0c'

/-- Python `s.strip()`: drop whitespace from both ends. -/
def pyStrip (s : String) : String :=
  String.mk (((s.data.dropWhile pyIsSpace).reverse.dropWhile pyIsSpace).reverse)

/-- Helper for `pySplitComma`: split a character list at every comma. -/
def splitCommaAux : List Char → List Char → List (List Char)
  | [], acc => [acc.reverse]
  | c :: rest, acc =>
    if c = ',' then acc.reverse :: splitCommaAux rest []
    else splitCommaAux rest (c :: acc)

/-- Python `s.split(',')`. -/
def pySplitComma (s : String) : List String :=
  (splitCommaAux s.data []).map String.mk

/-- Whether `needle` occurs as a contiguous sublist of `hay`. -/
def containsSub (needle : List Char) : List Char → Bool
  | [] => needle.isEmpty
  | c :: rest => needle.isPrefixOf (c :: rest) || containsSub needle rest

/-- Python substring membership `needle in hay` for strings. -/
def strIn (needle hay : String) : Bool :=
  containsSub needle.toList hay.toList

/-- Model of `preprocess_text(text)` from `matching.py`: returns `[]` when the input
is falsy or not a string; otherwise lowercases, tokenizes, drops tokens that
occur in `string.punctuation` (Python `in`, i.e. substring membership) or in
the stopword set, and stems the remainder, preserving order. -/
def preprocess_text (nlp : NLP) : PyText → List String
  | PyText.pynone => []
  | PyText.other => []
  | PyText.str s =>
    if s = "" then []
    else
      let text := pyLower s
      let tokens := nlp.tokenize text
      (tokens.filter
        (fun token => !(strIn token pythonPunctuation) && !(nlp.isStopword token))).map nlp.stem

/-- Round-half-to-even to the nearest integer, as Python 3's `round` does on
exact values. -/
def roundHalfEven (q : ℚ) : ℤ :=
  if q - (⌊q⌋ : ℚ) < 1/2 then ⌊q⌋
  else if 1/2 < q - (⌊q⌋ : ℚ) then ⌊q⌋ + 1
  else if ⌊q⌋ % 2 = 0 then ⌊q⌋ else ⌊q⌋ + 1

/-- Python `round(x, 2)` on exact values. -/
def round2 (q : ℚ) : ℚ := (roundHalfEven (q * 100) : ℚ) / 100

/-- The flattened token list of one side: every skill label preprocessed,
all tokens concatenated (the `extend` loops of
`calculate_hard_skills_score`). -/
def flatTokens (nlp : NLP) (skills : List PyText) : List String :=
  (skills.map (preprocess_text nlp)).flatten

/-- Model of `calculate_hard_skills_score(vacante_skills, alumno_skills)` from
`matching.py`: empty-required → 10, empty-possessed → 0, then the same two
checks on the flattened token lists, then the 60/40 coverage/Jaccard blend
over the deduplicated token sets, rounded to two decimals. -/
def calculate_hard_skills_score (nlp : NLP) (vacante_skills alumno_skills : List PyText) : ℚ :=
  if vacante_skills.isEmpty then 10
  else if alumno_skills.isEmpty then 0
  else
    let vacante_processed := flatTokens nlp vacante_skills
    let alumno_processed := flatTokens nlp alumno_skills
    if vacante_processed.isEmpty then 10
    else if alumno_processed.isEmpty then 0
    else
      let vacante_set := vacante_processed.toFinset
      let alumno_set := alumno_processed.toFinset
      let intersection := (vacante_set ∩ alumno_set).card
      let union := (vacante_set ∪ alumno_set).card
      if union = 0 then 0
      else
        let jaccard_score : ℚ := (intersection : ℚ) / (union : ℚ)
        let coverage : ℚ :=
          if 0 < vacante_set.card then (intersection : ℚ) / (vacante_set.card : ℚ) else 0
        round2 ((coverage * 0.6 + jaccard_score * 0.4) * 10)

/-- Abstract interface to the embedding pipeline of
`calculate_soft_skills_score`: `sim req poss` models
`cosine_similarity(model.encode(req), model.encode(poss))` — the pairwise
cosine-similarity matrix (one row per required label, one column per
possessed label) — and returns `none` when any step inside the `try` block
raises (model load error, encoding error, any runtime error).
`sim_shape` and `sim_bounded` record what sklearn's `cosine_similarity`
guarantees mathematically: the matrix has shape `(|req|, |poss|)` and every
entry is a cosine similarity in `[-1, 1]`. -/
structure SemModel where
  sim : List PyText → List PyText → Option (List (List ℚ))
  sim_shape : ∀ v a mat, sim v a = Option.some mat →
    mat.length = v.length ∧ ∀ row ∈ mat, row.length = a.length
  sim_bounded : ∀ v a mat, sim v a = Option.some mat →
    ∀ row ∈ mat, ∀ x ∈ row, -1 ≤ x ∧ x ≤ 1

/-- Model of `similarities[i].max()` on one row of the similarity matrix. -/
def rowMax (row : List ℚ) : ℚ := row.foldl max (row.headD 0)

/-- Model of `calculate_soft_skills_score(vacante_skills, alumno_skills)` from
`matching.py`: same empty-set edge cases as the hard scorer, then the
embedding path — per-required-label best match, averaged, remapped from
`[-1,1]` to `[0,1]`, scaled to 10 and rounded; on any failure inside the
`try` block, falls back to `calculate_hard_skills_score` on the same two
lists. -/
def calculate_soft_skills_score (nlp : NLP) (m : SemModel)
    (vacante_skills alumno_skills : List PyText) : ℚ :=
  if vacante_skills.isEmpty then 10
  else if alumno_skills.isEmpty then 0
  else
    match m.sim vacante_skills alumno_skills with
    | Option.none => calculate_hard_skills_score nlp vacante_skills alumno_skills
    | Option.some similarities =>
      let max_similarities :=
        (List.range vacante_skills.length).map (fun i => rowMax (similarities.getD i []))
      let avg_similarity := max_similarities.sum / (max_similarities.length : ℚ)
      let normalized_score := (avg_similarity + 1) / 2
      let score := normalized_score * 10
      round2 score

/-- A skill field of a candidate record: stored either as one
comma-delimited string or as a list of values. -/
inductive SkillField where
  | str (s : String) : SkillField
  | list (l : List PyText) : SkillField
deriving DecidableEq, Repr

/-- The string-to-list normalization in `calculate_matching_score`:
`[s.strip() for s in x.split(',') if s.strip()]` when the field is a
string; a list is used as-is. -/
def parseSkillField : SkillField → List PyText
  | SkillField.str s =>
    (((pySplitComma s).map pyStrip).filter (fun seg => seg ≠ "")).map PyText.str
  | SkillField.list l => l

/-- The subset of a posting record consumed by the matcher.  `Option.none`
models an absent key (`dict.get` with default `[]`). -/
structure VacanteData where
  habilidadesDuras : Option (List PyText)
  habilidadesBlandas : Option (List PyText)
deriving DecidableEq, Repr

/-- The subset of a candidate record consumed by the matcher.  `Option.none`
models an absent key. -/
structure AlumnoData where
  doc_id : Option String
  nombre : Option String
  correo : Option String
  habilidades_tecnicas : Option SkillField
  habilidades_blandas : Option SkillField
deriving DecidableEq, Repr

/-- The dictionary returned by `calculate_matching_score`. -/
structure MatchResult where
  hard_skills_score : ℚ
  soft_skills_score : ℚ
  final_score : ℚ
deriving DecidableEq, Repr

/-- Model of `calculate_matching_score(vacante_data, alumno_data)` from
`matching.py`: extract and normalize the four skill fields, compute the
hard score, then either blend with the soft score (80/20) when the posting
declares soft skills, or use the hard score alone with a perfect soft
score; all three outputs rounded to two decimals. -/
def calculate_matching_score (nlp : NLP) (m : SemModel)
    (vacante_data : VacanteData) (alumno_data : AlumnoData) : MatchResult :=
  let vacante_hard_skills := vacante_data.habilidadesDuras.getD []
  let vacante_soft_skills := vacante_data.habilidadesBlandas.getD []
  let use_soft_skills := !vacante_soft_skills.isEmpty
  let alumno_hard_skills :=
    parseSkillField (alumno_data.habilidades_tecnicas.getD (SkillField.str ""))
  let alumno_soft_skills :=
    parseSkillField (alumno_data.habilidades_blandas.getD (SkillField.str ""))
  let hard_score := calculate_hard_skills_score nlp vacante_hard_skills alumno_hard_skills
  if use_soft_skills then
    let soft_score := calculate_soft_skills_score nlp m vacante_soft_skills alumno_soft_skills
    let final_score := hard_score * 0.8 + soft_score * 0.2
    { hard_skills_score := round2 hard_score
      soft_skills_score := round2 soft_score
      final_score := round2 final_score }
  else
    let soft_score : ℚ := 10
    let final_score := hard_score
    { hard_skills_score := round2 hard_score
      soft_skills_score := round2 soft_score
      final_score := round2 final_score }

/-- One entry of the ranked list returned by `match_vacante_with_alumnos`. -/
structure RankedAlumno where
  alumno_id : String
  alumno_nombre : String
  alumno_correo : String
  hard_skills_score : ℚ
  soft_skills_score : ℚ
  final_score : ℚ
deriving DecidableEq, Repr

/-- The body of the loop in `match_vacante_with_alumnos`: skip the
candidate when `alumno.get('doc_id')` is falsy (absent or the empty
string), otherwise build the result entry with `'N/A'` defaults. -/
def alumnoEntry (nlp : NLP) (m : SemModel) (vacante_data : VacanteData)
    (alumno : AlumnoData) : Option RankedAlumno :=
  match alumno.doc_id with
  | Option.none => Option.none
  | Option.some alumno_id =>
    if alumno_id = "" then Option.none
    else
      let scores := calculate_matching_score nlp m vacante_data alumno
      Option.some
        { alumno_id := alumno_id
          alumno_nombre := alumno.nombre.getD "N/A"
          alumno_correo := alumno.correo.getD "N/A"
          hard_skills_score := scores.hard_skills_score
          soft_skills_score := scores.soft_skills_score
          final_score := scores.final_score }

/-- Stable descending insertion: `x` is placed before the first element
whose `final_score` does not exceed it, so an earlier-seen element stays
before later-seen elements with the same score. -/
def insertByScore (x : RankedAlumno) : List RankedAlumno → List RankedAlumno
  | [] => [x]
  | y :: ys =>
    if y.final_score ≤ x.final_score then x :: y :: ys
    else y :: insertByScore x ys

/-- Stable sort by `final_score` descending, modelling Python's stable
`results.sort(key=lambda x: x['final_score'], reverse=True)`. -/
def sortByScoreDesc : List RankedAlumno → List RankedAlumno
  | [] => []
  | x :: xs => insertByScore x (sortByScoreDesc xs)

/-- Model of `match_vacante_with_alumnos(vacante_data, alumnos_list)` from
`matching.py`: build one entry per candidate with a truthy `doc_id`,
then sort by `final_score` descending (Python's sort is stable). -/
def match_vacante_with_alumnos (nlp : NLP) (m : SemModel)
    (vacante_data : VacanteData) (alumnos_list : List AlumnoData) : List RankedAlumno :=
  sortByScoreDesc (alumnos_list.filterMap (alumnoEntry nlp m vacante_data))

/-- The `alumnoID` field of an application document: either a document
reference (an object with an `.id` attribute, always truthy) or a plain
value used via `str(...)` (falsy exactly when the string is empty). -/
inductive AlumnoRef where
  | docRef (id : String) : AlumnoRef
  | plain (s : String) : AlumnoRef
deriving DecidableEq, Repr

/-- Whether the reference is truthy in Python (`if not alumno_ref`). -/
def refTruthy : AlumnoRef → Bool
  | AlumnoRef.docRef _ => true
  | AlumnoRef.plain s => !(s = "")

/-- Model of `alumno_ref.id if hasattr(alumno_ref, 'id') else str(alumno_ref)`. -/
def refId : AlumnoRef → String
  | AlumnoRef.docRef id => id
  | AlumnoRef.plain s => s

/-- The subset of an application document consumed by the matcher. -/
structure Postulacion where
  alumnoID : Option AlumnoRef
deriving DecidableEq, Repr

/-- The candidate identifier an application resolves to, or `none` when the
application is skipped at the reference step (key absent or falsy). -/
def resolvedId (p : Postulacion) : Option String :=
  match p.alumnoID with
  | Option.none => Option.none
  | Option.some ref => if refTruthy ref then Option.some (refId ref) else Option.none

/-- Python `dict` lookup on the association-list model of the result. -/
def dictGet (k : String) : List (String × MatchResult) → Option MatchResult
  | [] => Option.none
  | kv :: rest => if kv.1 = k then Option.some kv.2 else dictGet k rest

/-- Python `dict` assignment `results[k] = v`: overwrite in place, append
when the key is new. -/
def dictInsert (k : String) (v : MatchResult) :
    List (String × MatchResult) → List (String × MatchResult)
  | [] => [(k, v)]
  | kv :: rest => if kv.1 = k then (k, v) :: rest else kv :: dictInsert k v rest

/-- The body of the loop in `match_vacante_with_postulantes`: skip when the
reference is falsy; resolve it to an id; skip when the id is absent from
`alumnos_dict`; otherwise score and insert. -/
def postulacionStep (nlp : NLP) (m : SemModel) (vacante_data : VacanteData)
    (alumnos_dict : String → Option AlumnoData)
    (results : List (String × MatchResult)) (postulacion : Postulacion) :
    List (String × MatchResult) :=
  match postulacion.alumnoID with
  | Option.none => results
  | Option.some ref =>
    if refTruthy ref then
      let alumno_id := refId ref
      match alumnos_dict alumno_id with
      | Option.none => results
      | Option.some alumno_data =>
        dictInsert alumno_id (calculate_matching_score nlp m vacante_data alumno_data) results
    else results

/-- Model of `match_vacante_with_postulantes(vacante_data, postulaciones_list,
alumnos_dict)` from `matching.py`. -/
def match_vacante_with_postulantes (nlp : NLP) (m : SemModel)
    (vacante_data : VacanteData) (postulaciones_list : List Postulacion)
    (alumnos_dict : String → Option AlumnoData) : List (String × MatchResult) :=
  postulaciones_list.foldl (postulacionStep nlp m vacante_data alumnos_dict) []

/-- A concrete instantiation of the NLTK interface used to evaluate the
definitions on closed inputs: one token per string, no stopwords, identity
stemmer. -/
def simpleNLP : NLP :=
  { tokenize := fun s => [s]
    isStopword := fun _ => false
    stem := fun s => s }

/-- A concrete embedding model whose every call fails (the `except` path). -/
def failSem : SemModel :=
  { sim := fun _ _ => Option.none
    sim_shape := fun _ _ _ h => by simp at h
    sim_bounded := fun _ _ _ h => by simp at h }

/-- A concrete embedding model in which every pair of labels has cosine
similarity 0. -/
def zeroSem : SemModel :=
  { sim := fun v a => Option.some (v.map (fun _ => a.map (fun _ => (0 : ℚ))))
    sim_shape := by
      intro v a mat h
      simp only [Option.some.injEq] at h
      subst h
      constructor
      · simp
      · intro row hrow
        rcases List.mem_map.mp hrow with ⟨x, _, hx⟩
        simp [← hx]
    sim_bounded := by
      intro v a mat h
      simp only [Option.some.injEq] at h
      subst h
      intro row hrow x hx
      rcases List.mem_map.mp hrow with ⟨y, _, hy⟩
      rw [← hy] at hx
      rcases List.mem_map.mp hx with ⟨z, _, hz⟩
      subst hz
      norm_num }

/-- A posting requiring three hard skills and no soft skills. -/
def exampleVacante : VacanteData :=
  { habilidadesDuras := Option.some [PyText.str "a", PyText.str "b", PyText.str "c"]
    habilidadesBlandas := Option.none }

/-- Candidate covering all three required tokens among twelve: hard score
`(1*0.6 + (3/12)*0.4) * 10 = 7.0`. -/
def alumnoA : AlumnoData :=
  { doc_id := Option.some "id-a"
    nombre := Option.some "Ana"
    correo := Option.none
    habilidades_tecnicas := Option.some (SkillField.list
      [PyText.str "a", PyText.str "b", PyText.str "c", PyText.str "d", PyText.str "e",
       PyText.str "f", PyText.str "g", PyText.str "h", PyText.str "i", PyText.str "j",
       PyText.str "k", PyText.str "l"])
    habilidades_blandas := Option.none }

/-- Candidate covering all three required tokens among four (stored as a
comma-delimited string): hard score `(1*0.6 + (3/4)*0.4) * 10 = 9.0`. -/
def alumnoB : AlumnoData :=
  { doc_id := Option.some "id-b"
    nombre := Option.some "Bruno"
    correo := Option.some "b@x"
    habilidades_tecnicas := Option.some (SkillField.str "a, b, c, d")
    habilidades_blandas := Option.none }

/-- Candidate covering all three required tokens among four: hard score
`9.0`, tied with `alumnoB` but encountered after it. -/
def alumnoC : AlumnoData :=
  { doc_id := Option.some "id-c"
    nombre := Option.some "Cata"
    correo := Option.none
    habilidades_tecnicas := Option.some (SkillField.list
      [PyText.str "a", PyText.str "b", PyText.str "c", PyText.str "e"])
    habilidades_blandas := Option.none }

/-- A posting that also requires one soft skill. -/
def exampleVacanteSoft : VacanteData :=
  { habilidadesDuras := Option.some [PyText.str "p"]
    habilidadesBlandas := Option.some [PyText.str "s"] }

/-- Candidate whose hard score against `exampleVacanteSoft` is
`(1*0.6 + (1/2)*0.4) * 10 = 8.0` and whose soft score under `zeroSem` is
`((0+1)/2) * 10 = 5.0`. -/
def alumnoD : AlumnoData :=
  { doc_id := Option.some "id-d"
    nombre := Option.none
    correo := Option.none
    habilidades_tecnicas := Option.some (SkillField.list [PyText.str "p", PyText.str "q"])
    habilidades_blandas := Option.some (SkillField.str "t") }

/-- Two applications: one resolvable against `exampleDict`, one not. -/
def examplePostulaciones : List Postulacion :=
  [{ alumnoID := Option.some (AlumnoRef.docRef "id-b") },
   { alumnoID := Option.some (AlumnoRef.docRef "missing") }]

/-- A candidate mapping containing only `id-b`. -/
def exampleDict : String → Option AlumnoData :=
  fun k => if k = "id-b" then Option.some alumnoB else Option.none

/-- A candidate record with no identifier (to be skipped by the ranker). -/
def alumnoNoId : AlumnoData :=
  { doc_id := Option.none
    nombre := Option.some "Nadie"
    correo := Option.none
    habilidades_tecnicas := Option.some (SkillField.str "a")
    habilidades_blandas := Option.none }

/-- The ranked entry produced for `alumnoA` against `exampleVacante`. -/
def rankedA : RankedAlumno :=
  { alumno_id := "id-a", alumno_nombre := "Ana", alumno_correo := "N/A"
    hard_skills_score := 7, soft_skills_score := 10, final_score := 7 }

/-- The ranked entry produced for `alumnoB` against `exampleVacante`. -/
def rankedB : RankedAlumno :=
  { alumno_id := "id-b", alumno_nombre := "Bruno", alumno_correo := "b@x"
    hard_skills_score := 9, soft_skills_score := 10, final_score := 9 }

/-- The ranked entry produced for `alumnoC` against `exampleVacante`. -/
def rankedC : RankedAlumno :=
  { alumno_id := "id-c", alumno_nombre := "Cata", alumno_correo := "N/A"
    hard_skills_score := 9, soft_skills_score := 10, final_score := 9 }

/-- A score the core may legally return: a finite value in `[0, 10]` with
at most two decimal digits. -/
def scoreValid (q : ℚ) : Prop := 0 ≤ q ∧ q ≤ 10 ∧ ∃ n : ℤ, q * 100 = (n : ℚ)

/-- Round-half-even of an integer is that integer. -/
theorem roundHalfEven_intCast (n : ℤ) : roundHalfEven (n : ℚ) = n := by
  unfold roundHalfEven
  rw [Int.floor_intCast]
  norm_num

/-- Round-half-even of a nonnegative rational is nonnegative. -/
theorem roundHalfEven_nonneg {q : ℚ} (h : 0 ≤ q) : 0 ≤ roundHalfEven q := by
  unfold roundHalfEven
  have hf : 0 ≤ ⌊q⌋ := Int.floor_nonneg.mpr h
  split_ifs <;> omega

/-- Round-half-even never overshoots an integer upper bound. -/
theorem roundHalfEven_le {q : ℚ} {n : ℤ} (h : q ≤ (n : ℚ)) : roundHalfEven q ≤ n := by
  unfold roundHalfEven
  have hf : ⌊q⌋ ≤ n := by
    have := Int.floor_le_floor h
    rwa [Int.floor_intCast] at this
  have hlt : ¬(q - (⌊q⌋ : ℚ) < 1/2) → ⌊q⌋ < n := by
    intro hge
    push_neg at hge
    have h1 : (⌊q⌋ : ℚ) + 1/2 ≤ q := by linarith
    have h2 : (⌊q⌋ : ℚ) < (n : ℚ) := by linarith
    exact_mod_cast h2
  split_ifs with h1 h2 h3
  · exact hf
  · exact hlt h1
  · exact hf
  · exact hlt h1

/-- Rounding a nonnegative rational with `round2` stays nonnegative. -/
theorem round2_nonneg {q : ℚ} (h : 0 ≤ q) : 0 ≤ round2 q := by
  unfold round2
  have : (0 : ℤ) ≤ roundHalfEven (q * 100) := roundHalfEven_nonneg (by positivity)
  have : (0 : ℚ) ≤ (roundHalfEven (q * 100) : ℚ) := by exact_mod_cast this
  positivity

/-- Rounding with `round2` never overshoots an integer upper bound. -/
theorem round2_le_int {q : ℚ} {n : ℤ} (h : q ≤ (n : ℚ)) : round2 q ≤ (n : ℚ) := by
  unfold round2
  have hb : roundHalfEven (q * 100) ≤ n * 100 := by
    apply roundHalfEven_le
    push_cast
    linarith
  have hb' : (roundHalfEven (q * 100) : ℚ) ≤ ((n * 100 : ℤ) : ℚ) := by exact_mod_cast hb
  push_cast at hb'
  linarith

/-- Rounding is the identity on rationals with at most two decimal digits. -/
theorem round2_eq_self {q : ℚ} {n : ℤ} (h : q * 100 = (n : ℚ)) : round2 q = q := by
  unfold round2
  rw [h, roundHalfEven_intCast]
  have h100 : (100 : ℚ) ≠ 0 := by norm_num
  field_simp
  linarith [h]

/-- Every `round2` output has at most two decimal digits. -/
theorem round2_twoDec (q : ℚ) : ∃ n : ℤ, round2 q * 100 = (n : ℚ) := by
  refine ⟨roundHalfEven (q * 100), ?_⟩
  unfold round2
  field_simp

/-- Rounding twice equals rounding once. -/
theorem round2_round2 (q : ℚ) : round2 (round2 q) = round2 q := by
  obtain ⟨n, hn⟩ := round2_twoDec q
  exact round2_eq_self hn

/-- Rounding an integer returns that integer. -/
theorem round2_intCast (n : ℤ) : round2 (n : ℚ) = n := by
  apply round2_eq_self (n := n * 100)
  push_cast
  ring

/-- Rounding fixes any integer number of hundredths. -/
theorem round2_div100 (n : ℤ) : round2 ((n : ℚ) / 100) = (n : ℚ) / 100 := by
  apply round2_eq_self (n := n)
  field_simp

/-- The hard scorer on an empty required list. -/
theorem hard_score_nil_required (nlp : NLP) (a : List PyText) :
    calculate_hard_skills_score nlp [] a = 10 := by
  simp [calculate_hard_skills_score]

/-- The hard scorer on a non-empty required list and empty possessed list. -/
theorem hard_score_nil_possessed (nlp : NLP) (v : List PyText) (hv : v ≠ []) :
    calculate_hard_skills_score nlp v [] = 0 := by
  simp [calculate_hard_skills_score, hv]

/-- The hard scorer when the required side flattens to no tokens. -/
theorem hard_score_flat_nil_required (nlp : NLP) (v a : List PyText)
    (hv : v ≠ []) (ha : a ≠ []) (hvp : flatTokens nlp v = []) :
    calculate_hard_skills_score nlp v a = 10 := by
  simp [calculate_hard_skills_score, hv, ha, hvp]

/-- The hard scorer when the required side has tokens but the possessed side
flattens to none. -/
theorem hard_score_flat_nil_possessed (nlp : NLP) (v a : List PyText)
    (hv : v ≠ []) (ha : a ≠ []) (hvp : flatTokens nlp v ≠ []) (hap : flatTokens nlp a = []) :
    calculate_hard_skills_score nlp v a = 0 := by
  simp [calculate_hard_skills_score, hv, ha, hvp, hap]

/-- The hard scorer on the main branch: the rounded 60/40 coverage/Jaccard
blend over the deduplicated token sets. -/
theorem hard_score_formula (nlp : NLP) (v a : List PyText)
    (hv : v ≠ []) (ha : a ≠ []) (hvp : flatTokens nlp v ≠ []) (hap : flatTokens nlp a ≠ []) :
    calculate_hard_skills_score nlp v a =
      round2 (((((flatTokens nlp v).toFinset ∩ (flatTokens nlp a).toFinset).card : ℚ) /
            ((flatTokens nlp v).toFinset.card : ℚ) * 0.6 +
          ((((flatTokens nlp v).toFinset ∩ (flatTokens nlp a).toFinset).card : ℚ)) /
            (((flatTokens nlp v).toFinset ∪ (flatTokens nlp a).toFinset).card : ℚ) * 0.4) * 10) := by
  have hR : (flatTokens nlp v).toFinset.Nonempty := (List.toFinset_nonempty_iff _).mpr hvp
  have hRcard : 0 < (flatTokens nlp v).toFinset.card := Finset.card_pos.mpr hR
  have hU : 0 < ((flatTokens nlp v).toFinset ∪ (flatTokens nlp a).toFinset).card :=
    Finset.card_pos.mpr (hR.mono Finset.subset_union_left)
  simp only [calculate_hard_skills_score, List.isEmpty_eq_true, hv, ha, hvp, hap,
    if_false, ite_false, hRcard, if_true, ite_true]
  rw [if_neg (Nat.pos_iff_ne_zero.mp hU)]

/-- Rounding fixes the value `10`. -/
theorem round2_ten : round2 (10 : ℚ) = 10 := by
  have := round2_intCast 10
  norm_num at this
  exact this

/-- Rounding fixes the value `0`. -/
theorem round2_zero : round2 (0 : ℚ) = 0 := by
  have := round2_intCast 0
  norm_num at this
  exact this

/-- The hard score is `10`, `0`, or the rounding of a blend in `[0, 10]`. -/
theorem hard_score_cases (nlp : NLP) (v a : List PyText) :
    calculate_hard_skills_score nlp v a = 10 ∨ calculate_hard_skills_score nlp v a = 0 ∨
    ∃ q : ℚ, 0 ≤ q ∧ q ≤ 10 ∧ calculate_hard_skills_score nlp v a = round2 q := by
  by_cases hv : v = []
  · exact Or.inl (by rw [hv, hard_score_nil_required])
  by_cases ha : a = []
  · exact Or.inr (Or.inl (by rw [ha, hard_score_nil_possessed nlp v hv]))
  by_cases hvp : flatTokens nlp v = []
  · exact Or.inl (hard_score_flat_nil_required nlp v a hv ha hvp)
  by_cases hap : flatTokens nlp a = []
  · exact Or.inr (Or.inl (hard_score_flat_nil_possessed nlp v a hv ha hvp hap))
  refine Or.inr (Or.inr ?_)
  set R := (flatTokens nlp v).toFinset with hRdef
  set P := (flatTokens nlp a).toFinset with hPdef
  have hR : R.Nonempty := (List.toFinset_nonempty_iff _).mpr hvp
  have hr : 0 < (R.card : ℚ) := by exact_mod_cast Finset.card_pos.mpr hR
  have hu : 0 < ((R ∪ P).card : ℚ) := by
    exact_mod_cast Finset.card_pos.mpr (hR.mono Finset.subset_union_left)
  have hir : ((R ∩ P).card : ℚ) ≤ (R.card : ℚ) := by
    exact_mod_cast Finset.card_le_card Finset.inter_subset_left
  have hiu : ((R ∩ P).card : ℚ) ≤ ((R ∪ P).card : ℚ) := by
    exact_mod_cast Finset.card_le_card
      (Finset.Subset.trans Finset.inter_subset_left Finset.subset_union_left)
  have hc1 : ((R ∩ P).card : ℚ) / (R.card : ℚ) ≤ 1 := (div_le_one hr).mpr hir
  have hj1 : ((R ∩ P).card : ℚ) / ((R ∪ P).card : ℚ) ≤ 1 := (div_le_one hu).mpr hiu
  have hc0 : 0 ≤ ((R ∩ P).card : ℚ) / (R.card : ℚ) := by positivity
  have hj0 : 0 ≤ ((R ∩ P).card : ℚ) / ((R ∪ P).card : ℚ) := by positivity
  refine ⟨(((R ∩ P).card : ℚ) / (R.card : ℚ) * 0.6 +
    ((R ∩ P).card : ℚ) / ((R ∪ P).card : ℚ) * 0.4) * 10, ?_, ?_, ?_⟩
  · nlinarith
  · nlinarith
  · exact hard_score_formula nlp v a hv ha hvp hap

/-- The hard score has at most two decimal digits. -/
theorem hard_score_twoDec (nlp : NLP) (v a : List PyText) :
    ∃ n : ℤ, calculate_hard_skills_score nlp v a * 100 = (n : ℚ) := by
  rcases hard_score_cases nlp v a with h | h | ⟨q, _, _, h⟩
  · exact ⟨1000, by rw [h]; norm_num⟩
  · exact ⟨0, by rw [h]; norm_num⟩
  · rw [h]; exact round2_twoDec q

/-- The hard score lies in `[0, 10]`. -/
theorem hard_score_bounds (nlp : NLP) (v a : List PyText) :
    0 ≤ calculate_hard_skills_score nlp v a ∧ calculate_hard_skills_score nlp v a ≤ 10 := by
  rcases hard_score_cases nlp v a with h | h | ⟨q, hq0, hq10, h⟩
  · rw [h]; norm_num
  · rw [h]; norm_num
  · rw [h]
    refine ⟨round2_nonneg hq0, ?_⟩
    have := round2_le_int (n := 10) (by exact_mod_cast hq10)
    exact_mod_cast this

/-- Rounding fixes the hard score. -/
theorem hard_score_round2_fixed (nlp : NLP) (v a : List PyText) :
    round2 (calculate_hard_skills_score nlp v a) = calculate_hard_skills_score nlp v a := by
  obtain ⟨n, hn⟩ := hard_score_twoDec nlp v a
  exact round2_eq_self hn

/-- The soft scorer on an empty required list. -/
theorem soft_score_nil_required (nlp : NLP) (m : SemModel) (a : List PyText) :
    calculate_soft_skills_score nlp m [] a = 10 := by
  simp [calculate_soft_skills_score]

/-- The soft scorer on a non-empty required list and empty possessed list. -/
theorem soft_score_nil_possessed (nlp : NLP) (m : SemModel) (v : List PyText) (hv : v ≠ []) :
    calculate_soft_skills_score nlp m v [] = 0 := by
  simp [calculate_soft_skills_score, hv]

/-- The soft scorer falls back to the hard scorer when the embedding
computation fails. -/
theorem soft_score_fallback (nlp : NLP) (m : SemModel) (v a : List PyText)
    (hv : v ≠ []) (ha : a ≠ []) (hsim : m.sim v a = Option.none) :
    calculate_soft_skills_score nlp m v a = calculate_hard_skills_score nlp v a := by
  simp [calculate_soft_skills_score, hv, ha, hsim]

/-- The soft scorer on a successful embedding computation. -/
theorem soft_score_embed (nlp : NLP) (m : SemModel) (v a : List PyText)
    (hv : v ≠ []) (ha : a ≠ []) (mat : List (List ℚ)) (hsim : m.sim v a = Option.some mat) :
    calculate_soft_skills_score nlp m v a =
      round2 (((((List.range v.length).map (fun i => rowMax (mat.getD i []))).sum /
        (v.length : ℚ) + 1) / 2) * 10) := by
  simp [calculate_soft_skills_score, hv, ha, hsim]

/-- The initial accumulator bounds a `foldl max` from below. -/
theorem le_foldl_max (a : ℚ) (l : List ℚ) : a ≤ l.foldl max a := by
  induction l generalizing a with
  | nil => exact le_refl a
  | cons x xs ih => exact le_trans (le_max_left a x) (ih (max a x))

/-- A common upper bound of the accumulator and the elements bounds a
`foldl max`. -/
theorem foldl_max_le (a b : ℚ) (l : List ℚ) (ha : a ≤ b) (hl : ∀ x ∈ l, x ≤ b) :
    l.foldl max a ≤ b := by
  induction l generalizing a with
  | nil => exact ha
  | cons x xs ih =>
    exact ih (max a x) (max_le ha (hl x (List.mem_cons_self x xs)))
      fun y hy => hl y (List.mem_cons_of_mem x hy)

/-- The maximum of a row with entries in `[-1, 1]` lies in `[-1, 1]`. -/
theorem rowMax_bounds (row : List ℚ) (h : ∀ x ∈ row, -1 ≤ x ∧ x ≤ 1) :
    -1 ≤ rowMax row ∧ rowMax row ≤ 1 := by
  cases row with
  | nil => simp [rowMax]
  | cons c cs =>
    have hc := h c (List.mem_cons_self c cs)
    constructor
    · exact le_trans hc.1 (by simpa [rowMax] using le_foldl_max c (c :: cs))
    · simpa [rowMax] using foldl_max_le c 1 (c :: cs) hc.2 fun y hy => (h y hy).2

/-- Each `similarities[i].max()` lies in `[-1, 1]` when every matrix entry
does (an out-of-range index contributes the default `0`). -/
theorem rowMax_getD_bounds (mat : List (List ℚ))
    (h : ∀ row ∈ mat, ∀ x ∈ row, -1 ≤ x ∧ x ≤ 1) (i : ℕ) :
    -1 ≤ rowMax (mat.getD i []) ∧ rowMax (mat.getD i []) ≤ 1 := by
  by_cases hi : i < mat.length
  · have hmem : mat.getD i [] ∈ mat := by
      rw [List.getD_eq_getElem?_getD, List.getElem?_eq_getElem hi]
      exact List.getElem_mem hi
    exact rowMax_bounds _ (h _ hmem)
  · have : mat.getD i [] = [] := by
      rw [List.getD_eq_getElem?_getD, List.getElem?_eq_none (by omega)]
      rfl
    rw [this]
    simp [rowMax]

/-- The soft score is `10`, `0`, the hard score (fallback), or the rounding
of a value in `[0, 10]`. -/
theorem soft_score_cases (nlp : NLP) (m : SemModel) (v a : List PyText) :
    calculate_soft_skills_score nlp m v a = 10 ∨
    calculate_soft_skills_score nlp m v a = 0 ∨
    calculate_soft_skills_score nlp m v a = calculate_hard_skills_score nlp v a ∨
    ∃ q : ℚ, 0 ≤ q ∧ q ≤ 10 ∧ calculate_soft_skills_score nlp m v a = round2 q := by
  by_cases hv : v = []
  · exact Or.inl (by rw [hv, soft_score_nil_required])
  by_cases ha : a = []
  · exact Or.inr (Or.inl (by rw [ha, soft_score_nil_possessed nlp m v hv]))
  cases hsim : m.sim v a with
  | none => exact Or.inr (Or.inr (Or.inl (soft_score_fallback nlp m v a hv ha hsim)))
  | some mat =>
    refine Or.inr (Or.inr (Or.inr ?_))
    set maxSims := (List.range v.length).map (fun i => rowMax (mat.getD i [])) with hms
    have hb := rowMax_getD_bounds mat (m.sim_bounded v a mat hsim)
    have hlen : maxSims.length = v.length := by simp [hms]
    have hpos : 0 < (v.length : ℚ) := by
      exact_mod_cast List.length_pos.mpr hv
    have hsum_le : maxSims.sum ≤ (v.length : ℚ) := by
      have := List.sum_le_card_nsmul maxSims 1 ?_
      · rwa [hlen, nsmul_eq_mul, mul_one] at this
      · intro x hx
        rcases List.mem_map.mp hx with ⟨i, _, hi⟩
        exact hi ▸ (hb i).2
    have hsum_ge : -(v.length : ℚ) ≤ maxSims.sum := by
      have := List.card_nsmul_le_sum maxSims (-1) ?_
      · rw [hlen, nsmul_eq_mul, mul_neg_one] at this
        exact this
      · intro x hx
        rcases List.mem_map.mp hx with ⟨i, _, hi⟩
        exact hi ▸ (hb i).1
    have havg_le : maxSims.sum / (v.length : ℚ) ≤ 1 := by
      rw [div_le_one hpos]; exact hsum_le
    have havg_ge : -1 ≤ maxSims.sum / (v.length : ℚ) := by
      rw [le_div_iff₀ hpos]; linarith
    refine ⟨((maxSims.sum / (v.length : ℚ) + 1) / 2) * 10, by linarith, by linarith, ?_⟩
    exact soft_score_embed nlp m v a hv ha mat hsim

/-- The soft score has at most two decimal digits. -/
theorem soft_score_twoDec (nlp : NLP) (m : SemModel) (v a : List PyText) :
    ∃ n : ℤ, calculate_soft_skills_score nlp m v a * 100 = (n : ℚ) := by
  rcases soft_score_cases nlp m v a with h | h | h | ⟨q, _, _, h⟩
  · exact ⟨1000, by rw [h]; norm_num⟩
  · exact ⟨0, by rw [h]; norm_num⟩
  · rw [h]; exact hard_score_twoDec nlp v a
  · rw [h]; exact round2_twoDec q

/-- The soft score lies in `[0, 10]`. -/
theorem soft_score_bounds (nlp : NLP) (m : SemModel) (v a : List PyText) :
    0 ≤ calculate_soft_skills_score nlp m v a ∧ calculate_soft_skills_score nlp m v a ≤ 10 := by
  rcases soft_score_cases nlp m v a with h | h | h | ⟨q, hq0, hq10, h⟩
  · rw [h]; norm_num
  · rw [h]; norm_num
  · rw [h]; exact hard_score_bounds nlp v a
  · rw [h]
    refine ⟨round2_nonneg hq0, ?_⟩
    have := round2_le_int (n := 10) (by exact_mod_cast hq10)
    exact_mod_cast this

/-- Rounding fixes the soft score. -/
theorem soft_score_round2_fixed (nlp : NLP) (m : SemModel) (v a : List PyText) :
    round2 (calculate_soft_skills_score nlp m v a) = calculate_soft_skills_score nlp m v a := by
  obtain ⟨n, hn⟩ := soft_score_twoDec nlp m v a
  exact round2_eq_self hn

/-- The composer when the posting declares at least one soft skill: the
80/20 blend. -/
theorem matching_score_with_soft (nlp : NLP) (m : SemModel)
    (vd : VacanteData) (ad : AlumnoData) (h : vd.habilidadesBlandas.getD [] ≠ []) :
    calculate_matching_score nlp m vd ad =
      { hard_skills_score := round2 (calculate_hard_skills_score nlp (vd.habilidadesDuras.getD [])
          (parseSkillField (ad.habilidades_tecnicas.getD (SkillField.str ""))))
        soft_skills_score := round2 (calculate_soft_skills_score nlp m (vd.habilidadesBlandas.getD [])
          (parseSkillField (ad.habilidades_blandas.getD (SkillField.str ""))))
        final_score := round2 (calculate_hard_skills_score nlp (vd.habilidadesDuras.getD [])
            (parseSkillField (ad.habilidades_tecnicas.getD (SkillField.str ""))) * 0.8 +
          calculate_soft_skills_score nlp m (vd.habilidadesBlandas.getD [])
            (parseSkillField (ad.habilidades_blandas.getD (SkillField.str ""))) * 0.2) } := by
  simp [calculate_matching_score, h]

/-- The composer when the posting declares no soft skills: the soft score
is a perfect `10` and the final score is exactly the hard score. -/
theorem matching_score_no_soft (nlp : NLP) (m : SemModel)
    (vd : VacanteData) (ad : AlumnoData) (h : vd.habilidadesBlandas.getD [] = []) :
    calculate_matching_score nlp m vd ad =
      { hard_skills_score := calculate_hard_skills_score nlp (vd.habilidadesDuras.getD [])
          (parseSkillField (ad.habilidades_tecnicas.getD (SkillField.str "")))
        soft_skills_score := 10
        final_score := calculate_hard_skills_score nlp (vd.habilidadesDuras.getD [])
          (parseSkillField (ad.habilidades_tecnicas.getD (SkillField.str ""))) } := by
  simp [calculate_matching_score, h, round2_ten, hard_score_round2_fixed]

/-- Inserting is a permutation of consing. -/
theorem insertByScore_perm (x : RankedAlumno) (l : List RankedAlumno) :
    List.Perm (insertByScore x l) (x :: l) := by
  induction l with
  | nil => simp [insertByScore]
  | cons y ys ih =>
    by_cases h : y.final_score ≤ x.final_score
    · simp [insertByScore, h]
    · simp only [insertByScore, h, if_false, ite_false]
      exact List.Perm.trans (List.Perm.cons y ih) (List.Perm.swap x y ys)

/-- The stable sort is a permutation of its input. -/
theorem sortByScoreDesc_perm (l : List RankedAlumno) :
    List.Perm (sortByScoreDesc l) l := by
  induction l with
  | nil => simp [sortByScoreDesc]
  | cons x xs ih =>
    exact List.Perm.trans (insertByScore_perm x (sortByScoreDesc xs)) (List.Perm.cons x ih)

/-- Inserting preserves descending order by `final_score`. -/
theorem insertByScore_sorted (x : RankedAlumno) (l : List RankedAlumno)
    (h : l.Pairwise (fun u w => w.final_score ≤ u.final_score)) :
    (insertByScore x l).Pairwise (fun u w => w.final_score ≤ u.final_score) := by
  induction l with
  | nil => simp [insertByScore]
  | cons y ys ih =>
    rcases List.pairwise_cons.mp h with ⟨hy, hys⟩
    by_cases hxy : y.final_score ≤ x.final_score
    · simp only [insertByScore, hxy, if_true, ite_true]
      refine List.pairwise_cons.mpr ⟨?_, h⟩
      intro z hz
      rcases List.mem_cons.mp hz with rfl | hz
      · exact hxy
      · exact le_trans (hy z hz) hxy
    · simp only [insertByScore, hxy, if_false, ite_false]
      refine List.pairwise_cons.mpr ⟨?_, ih hys⟩
      intro z hz
      have hz' := (insertByScore_perm x ys).mem_iff.mp hz
      rcases List.mem_cons.mp hz' with rfl | hz'
      · exact le_of_not_le hxy
      · exact hy z hz'

/-- The stable sort is sorted by `final_score` descending. -/
theorem sortByScoreDesc_sorted (l : List RankedAlumno) :
    (sortByScoreDesc l).Pairwise (fun u w => w.final_score ≤ u.final_score) := by
  induction l with
  | nil => simp [sortByScoreDesc]
  | cons x xs ih => exact insertByScore_sorted x (sortByScoreDesc xs) ih

/-- Filtering a score class through an insertion of an element of that
class: the new element lands in front, because insertion only walks past
strictly greater scores. -/
theorem insertByScore_filter_pos (x : RankedAlumno) (l : List RankedAlumno) (s : ℚ)
    (hx : x.final_score = s) :
    (insertByScore x l).filter (fun y => y.final_score = s) =
      x :: l.filter (fun y => y.final_score = s) := by
  induction l with
  | nil => simp [insertByScore, hx]
  | cons y ys ih =>
    by_cases hxy : y.final_score ≤ x.final_score
    · rw [insertByScore, if_pos hxy]
      simp [List.filter_cons, hx]
    · rw [insertByScore, if_neg hxy]
      have hy : ¬(y.final_score = s) := by
        intro hys
        exact hxy (by rw [hx, ← hys])
      simp [List.filter_cons, hy, ih]

/-- Filtering a score class through an insertion of an element outside that
class leaves the filtered list unchanged. -/
theorem insertByScore_filter_neg (x : RankedAlumno) (l : List RankedAlumno) (s : ℚ)
    (hx : ¬(x.final_score = s)) :
    (insertByScore x l).filter (fun y => y.final_score = s) =
      l.filter (fun y => y.final_score = s) := by
  induction l with
  | nil => simp [insertByScore, hx]
  | cons y ys ih =>
    by_cases hxy : y.final_score ≤ x.final_score
    · rw [insertByScore, if_pos hxy]
      simp [List.filter_cons, hx]
    · rw [insertByScore, if_neg hxy]
      simp [List.filter_cons, ih]

/-- Stability: within each score class the stable sort preserves the
original order exactly. -/
theorem sortByScoreDesc_filter (l : List RankedAlumno) (s : ℚ) :
    (sortByScoreDesc l).filter (fun y => y.final_score = s) =
      l.filter (fun y => y.final_score = s) := by
  induction l with
  | nil => simp [sortByScoreDesc]
  | cons x xs ih =>
    by_cases hx : x.final_score = s
    · rw [sortByScoreDesc, insertByScore_filter_pos _ _ _ hx, ih]
      simp [hx]
    · rw [sortByScoreDesc, insertByScore_filter_neg _ _ _ hx, ih]
      simp [hx]

/-- Looking up the key just inserted. -/
theorem dictGet_dictInsert_self (k : String) (v : MatchResult)
    (d : List (String × MatchResult)) :
    dictGet k (dictInsert k v d) = Option.some v := by
  induction d with
  | nil => simp [dictInsert, dictGet]
  | cons kv rest ih =>
    by_cases h : kv.1 = k
    · simp [dictInsert, h, dictGet]
    · simp [dictInsert, h, dictGet, ih]

/-- Looking up a different key after an insertion. -/
theorem dictGet_dictInsert_ne (k k' : String) (v : MatchResult)
    (d : List (String × MatchResult)) (h : k ≠ k') :
    dictGet k' (dictInsert k v d) = dictGet k' d := by
  induction d with
  | nil => simp [dictInsert, dictGet, h]
  | cons kv rest ih =>
    by_cases hkv : kv.1 = k
    · simp [dictInsert, hkv, dictGet, h]
    · simp [dictInsert, hkv, dictGet, ih]

/-- The loop body of `match_vacante_with_postulantes`, phrased through
`resolvedId`. -/
theorem postulacionStep_eq (nlp : NLP) (m : SemModel) (vd : VacanteData)
    (dict : String → Option AlumnoData) (init : List (String × MatchResult))
    (p : Postulacion) :
    postulacionStep nlp m vd dict init p =
      match resolvedId p with
      | Option.none => init
      | Option.some j =>
        match dict j with
        | Option.none => init
        | Option.some ad => dictInsert j (calculate_matching_score nlp m vd ad) init := by
  cases hp : p.alumnoID with
  | none => simp [postulacionStep, resolvedId, hp]
  | some ref =>
    by_cases ht : refTruthy ref
    · simp [postulacionStep, resolvedId, hp, ht]
    · simp [postulacionStep, resolvedId, hp, ht]

/-- Invariant of the applicant-scoring fold: the result of looking up `id`
is the score of the mapped candidate when some application resolves to
`id` and the mapping contains it, and the initial content otherwise. -/
theorem postulantes_fold_dictGet (nlp : NLP) (m : SemModel) (vd : VacanteData)
    (dict : String → Option AlumnoData) (ps : List Postulacion)
    (init : List (String × MatchResult)) (id : String) :
    dictGet id (ps.foldl (postulacionStep nlp m vd dict) init) =
      if ps.any (fun p => decide (resolvedId p = Option.some id) && (dict id).isSome) then
        (dict id).map (fun ad => calculate_matching_score nlp m vd ad)
      else dictGet id init := by
  induction ps generalizing init with
  | nil => simp
  | cons p ps ih =>
    rw [List.foldl_cons, ih (postulacionStep nlp m vd dict init p), List.any_cons]
    by_cases hrest : ps.any (fun p => decide (resolvedId p = Option.some id) && (dict id).isSome) = true
    · simp [hrest]
    · rw [Bool.not_eq_true] at hrest
      simp only [hrest, Bool.false_eq_true, if_false, Bool.or_false]
      rw [postulacionStep_eq]
      cases hr : resolvedId p with
      | none => simp [hr]
      | some j =>
        by_cases hj : j = id
        · subst hj
          cases hd : dict j with
          | none => simp [hr, hd]
          | some ad => simp [hr, hd, dictGet_dictInsert_self]
        · cases hd : dict j with
          | none => simp [hr, hj, hd]
          | some ad =>
            simp only [hr, hd]
            rw [dictGet_dictInsert_ne j id _ init hj]
            simp [hj]

/-- Concrete hard score of `alumnoA` against `exampleVacante`. -/
theorem alumnoA_hard_eval :
    calculate_hard_skills_score simpleNLP (exampleVacante.habilidadesDuras.getD [])
      (parseSkillField (alumnoA.habilidades_tecnicas.getD (SkillField.str ""))) = 7 := by
  have h1 : ((flatTokens simpleNLP (exampleVacante.habilidadesDuras.getD [])).toFinset ∩
      (flatTokens simpleNLP
        (parseSkillField (alumnoA.habilidades_tecnicas.getD (SkillField.str "")))).toFinset).card
      = 3 := by decide
  have h2 : ((flatTokens simpleNLP (exampleVacante.habilidadesDuras.getD [])).toFinset ∪
      (flatTokens simpleNLP
        (parseSkillField (alumnoA.habilidades_tecnicas.getD (SkillField.str "")))).toFinset).card
      = 12 := by decide
  have h3 : (flatTokens simpleNLP (exampleVacante.habilidadesDuras.getD [])).toFinset.card = 3 := by
    decide
  rw [hard_score_formula _ _ _ (by decide) (by decide) (by decide) (by decide), h1, h2, h3]
  norm_num
  rw [show (7 : ℚ) = ((7 : ℤ) : ℚ) by norm_num, round2_intCast]

/-- Concrete hard score of `alumnoB` against `exampleVacante`. -/
theorem alumnoB_hard_eval :
    calculate_hard_skills_score simpleNLP (exampleVacante.habilidadesDuras.getD [])
      (parseSkillField (alumnoB.habilidades_tecnicas.getD (SkillField.str ""))) = 9 := by
  have h1 : ((flatTokens simpleNLP (exampleVacante.habilidadesDuras.getD [])).toFinset ∩
      (flatTokens simpleNLP
        (parseSkillField (alumnoB.habilidades_tecnicas.getD (SkillField.str "")))).toFinset).card
      = 3 := by decide
  have h2 : ((flatTokens simpleNLP (exampleVacante.habilidadesDuras.getD [])).toFinset ∪
      (flatTokens simpleNLP
        (parseSkillField (alumnoB.habilidades_tecnicas.getD (SkillField.str "")))).toFinset).card
      = 4 := by decide
  have h3 : (flatTokens simpleNLP (exampleVacante.habilidadesDuras.getD [])).toFinset.card = 3 := by
    decide
  rw [hard_score_formula _ _ _ (by decide) (by decide) (by decide) (by decide), h1, h2, h3]
  norm_num
  rw [show (9 : ℚ) = ((9 : ℤ) : ℚ) by norm_num, round2_intCast]

/-- Concrete hard score of `alumnoC` against `exampleVacante`. -/
theorem alumnoC_hard_eval :
    calculate_hard_skills_score simpleNLP (exampleVacante.habilidadesDuras.getD [])
      (parseSkillField (alumnoC.habilidades_tecnicas.getD (SkillField.str ""))) = 9 := by
  have h1 : ((flatTokens simpleNLP (exampleVacante.habilidadesDuras.getD [])).toFinset ∩
      (flatTokens simpleNLP
        (parseSkillField (alumnoC.habilidades_tecnicas.getD (SkillField.str "")))).toFinset).card
      = 3 := by decide
  have h2 : ((flatTokens simpleNLP (exampleVacante.habilidadesDuras.getD [])).toFinset ∪
      (flatTokens simpleNLP
        (parseSkillField (alumnoC.habilidades_tecnicas.getD (SkillField.str "")))).toFinset).card
      = 4 := by decide
  have h3 : (flatTokens simpleNLP (exampleVacante.habilidadesDuras.getD [])).toFinset.card = 3 := by
    decide
  rw [hard_score_formula _ _ _ (by decide) (by decide) (by decide) (by decide), h1, h2, h3]
  norm_num
  rw [show (9 : ℚ) = ((9 : ℤ) : ℚ) by norm_num, round2_intCast]

/-- Concrete matching result of `alumnoA` against `exampleVacante`. -/
theorem matchA_eval :
    calculate_matching_score simpleNLP failSem exampleVacante alumnoA =
      { hard_skills_score := 7, soft_skills_score := 10, final_score := 7 } := by
  rw [matching_score_no_soft _ _ _ _ (by decide), alumnoA_hard_eval]

/-- Concrete matching result of `alumnoB` against `exampleVacante`. -/
theorem matchB_eval :
    calculate_matching_score simpleNLP failSem exampleVacante alumnoB =
      { hard_skills_score := 9, soft_skills_score := 10, final_score := 9 } := by
  rw [matching_score_no_soft _ _ _ _ (by decide), alumnoB_hard_eval]

/-- Concrete matching result of `alumnoC` against `exampleVacante`. -/
theorem matchC_eval :
    calculate_matching_score simpleNLP failSem exampleVacante alumnoC =
      { hard_skills_score := 9, soft_skills_score := 10, final_score := 9 } := by
  rw [matching_score_no_soft _ _ _ _ (by decide), alumnoC_hard_eval]

/-- Concrete ranked entry of `alumnoA`. -/
theorem alumnoA_entry_eval :
    alumnoEntry simpleNLP failSem exampleVacante alumnoA = Option.some rankedA := by
  simp [alumnoEntry, matchA_eval, rankedA,
    show alumnoA.doc_id = Option.some "id-a" from rfl,
    show alumnoA.nombre = Option.some "Ana" from rfl,
    show alumnoA.correo = Option.none from rfl]

/-- Concrete ranked entry of `alumnoB`. -/
theorem alumnoB_entry_eval :
    alumnoEntry simpleNLP failSem exampleVacante alumnoB = Option.some rankedB := by
  simp [alumnoEntry, matchB_eval, rankedB,
    show alumnoB.doc_id = Option.some "id-b" from rfl,
    show alumnoB.nombre = Option.some "Bruno" from rfl,
    show alumnoB.correo = Option.some "b@x" from rfl]

/-- Concrete ranked entry of `alumnoC`. -/
theorem alumnoC_entry_eval :
    alumnoEntry simpleNLP failSem exampleVacante alumnoC = Option.some rankedC := by
  simp [alumnoEntry, matchC_eval, rankedC,
    show alumnoC.doc_id = Option.some "id-c" from rfl,
    show alumnoC.nombre = Option.some "Cata" from rfl,
    show alumnoC.correo = Option.none from rfl]

/-- Concrete ranking: scores `[7, 9, 9]` come back ordered `[B, C, A]`,
ties in encounter order. -/
theorem example_ranking_eval :
    match_vacante_with_alumnos simpleNLP failSem exampleVacante [alumnoA, alumnoB, alumnoC] =
      [rankedB, rankedC, rankedA] := by
  rw [match_vacante_with_alumnos,
    show [alumnoA, alumnoB, alumnoC].filterMap (alumnoEntry simpleNLP failSem exampleVacante) =
      [rankedA, rankedB, rankedC] from by
        simp [List.filterMap_cons, alumnoA_entry_eval, alumnoB_entry_eval, alumnoC_entry_eval]]
  norm_num [sortByScoreDesc, insertByScore, rankedA, rankedB, rankedC]

/-- Concrete hard score of `alumnoD` against `exampleVacanteSoft`. -/
theorem alumnoD_hard_eval :
    calculate_hard_skills_score simpleNLP (exampleVacanteSoft.habilidadesDuras.getD [])
      (parseSkillField (alumnoD.habilidades_tecnicas.getD (SkillField.str ""))) = 8 := by
  have h1 : ((flatTokens simpleNLP (exampleVacanteSoft.habilidadesDuras.getD [])).toFinset ∩
      (flatTokens simpleNLP
        (parseSkillField (alumnoD.habilidades_tecnicas.getD (SkillField.str "")))).toFinset).card
      = 1 := by decide
  have h2 : ((flatTokens simpleNLP (exampleVacanteSoft.habilidadesDuras.getD [])).toFinset ∪
      (flatTokens simpleNLP
        (parseSkillField (alumnoD.habilidades_tecnicas.getD (SkillField.str "")))).toFinset).card
      = 2 := by decide
  have h3 : (flatTokens simpleNLP (exampleVacanteSoft.habilidadesDuras.getD [])).toFinset.card
      = 1 := by decide
  rw [hard_score_formula _ _ _ (by decide) (by decide) (by decide) (by decide), h1, h2, h3]
  norm_num
  rw [show (8 : ℚ) = ((8 : ℤ) : ℚ) by norm_num, round2_intCast]

/-- Concrete soft score of `alumnoD` against `exampleVacanteSoft` under the
constant-zero-similarity embedding model. -/
theorem alumnoD_soft_eval :
    calculate_soft_skills_score simpleNLP zeroSem (exampleVacanteSoft.habilidadesBlandas.getD [])
      (parseSkillField (alumnoD.habilidades_blandas.getD (SkillField.str ""))) = 5 := by
  rw [show exampleVacanteSoft.habilidadesBlandas.getD [] = [PyText.str "s"] from rfl,
    show parseSkillField (alumnoD.habilidades_blandas.getD (SkillField.str "")) =
      [PyText.str "t"] from by decide]
  rw [soft_score_embed simpleNLP zeroSem [PyText.str "s"] [PyText.str "t"]
    (by decide) (by decide) [[0]] rfl]
  norm_num [rowMax, show List.range 1 = [0] from rfl]
  rw [show (5 : ℚ) = ((5 : ℤ) : ℚ) by norm_num, round2_intCast]

/-- Concrete matching result of `alumnoD` against `exampleVacanteSoft`:
hard 8.0 and soft 5.0 blend to `round(8*0.8 + 5*0.2, 2) = 7.40`. -/
theorem matchD_eval :
    calculate_matching_score simpleNLP zeroSem exampleVacanteSoft alumnoD =
      { hard_skills_score := 8, soft_skills_score := 5, final_score := 7.4 } := by
  rw [matching_score_with_soft _ _ _ _ (by decide), alumnoD_hard_eval, alumnoD_soft_eval]
  simp only [MatchResult.mk.injEq]
  refine ⟨?_, ?_, ?_⟩
  · rw [show (8 : ℚ) = ((8 : ℤ) : ℚ) by norm_num, round2_intCast]
  · rw [show (5 : ℚ) = ((5 : ℤ) : ℚ) by norm_num, round2_intCast]
  · rw [show (8 : ℚ) * 0.8 + 5 * 0.2 = ((740 : ℤ) : ℚ) / 100 by norm_num, round2_div100]
    norm_num

/-- C8: for every input that is empty, null, or not a string, the text
normalizer `preprocess_text` returns the empty token sequence (it is a
total function, so no exception can be raised). -/
theorem claim_C8_preprocess_degrades (nlp : NLP) :
    preprocess_text nlp PyText.pynone = [] ∧
    preprocess_text nlp PyText.other = [] ∧
    preprocess_text nlp (PyText.str "") = [] := by
  refine ⟨rfl, rfl, ?_⟩
  simp [preprocess_text]

/-- C3: both scorers return exactly 10 when the required list is empty
(also with an empty possessed list: the empty-required check takes
precedence), and exactly 0 when the required list is non-empty and the
possessed list is empty. -/
theorem claim_C3_empty_edge_cases (nlp : NLP) (m : SemModel) :
    (∀ possessed : List PyText,
      calculate_hard_skills_score nlp [] possessed = 10 ∧
      calculate_soft_skills_score nlp m [] possessed = 10) ∧
    (∀ required : List PyText, required ≠ [] →
      calculate_hard_skills_score nlp required [] = 0 ∧
      calculate_soft_skills_score nlp m required [] = 0) ∧
    (calculate_hard_skills_score nlp [] [] = 10 ∧
      calculate_soft_skills_score nlp m [] [] = 10) := by
  refine ⟨?_, ?_, ?_⟩
  · intro possessed
    exact ⟨hard_score_nil_required nlp possessed, soft_score_nil_required nlp m possessed⟩
  · intro required hr
    exact ⟨hard_score_nil_possessed nlp required hr, soft_score_nil_possessed nlp m required hr⟩
  · exact ⟨hard_score_nil_required nlp [], soft_score_nil_required nlp m []⟩

/-- Witness for C3 at a concrete non-empty required list. -/
theorem claim_C3_witness :
    ([PyText.str "a"] : List PyText) ≠ [] ∧
    calculate_hard_skills_score simpleNLP [PyText.str "a"] [] = 0 ∧
    calculate_soft_skills_score simpleNLP failSem [PyText.str "a"] [] = 0 :=
  ⟨by decide, (claim_C3_empty_edge_cases simpleNLP failSem).2.1 [PyText.str "a"] (by decide)⟩

/-- C4: whenever the embedding computation inside
`calculate_soft_skills_score` fails (the abstract similarity call returns
`none`, covering model load, encoding and runtime errors), the function
returns `calculate_hard_skills_score` on the same two lists; being a total
function it propagates no failure. -/
theorem claim_C4_embedding_failure_fallback (nlp : NLP) (m : SemModel)
    (v a : List PyText) (hv : v ≠ []) (ha : a ≠ [])
    (hfail : m.sim v a = Option.none) :
    calculate_soft_skills_score nlp m v a = calculate_hard_skills_score nlp v a :=
  soft_score_fallback nlp m v a hv ha hfail

/-- Witness for C4 under the always-failing embedding model. -/
theorem claim_C4_witness :
    ([PyText.str "a"] : List PyText) ≠ [] ∧
    calculate_soft_skills_score simpleNLP failSem [PyText.str "a"] [PyText.str "b"] =
      calculate_hard_skills_score simpleNLP [PyText.str "a"] [PyText.str "b"] :=
  ⟨by decide,
    claim_C4_embedding_failure_fallback simpleNLP failSem [PyText.str "a"] [PyText.str "b"]
      (by decide) (by decide) rfl⟩

/-- C1: on non-empty skill lists, `calculate_hard_skills_score` flattens
both sides into deduplicated token sets R and P; it returns 10 when R is
empty, 0 when R is non-empty and P is empty, and otherwise
`round((coverage*0.6 + jaccard*0.4) * 10, 2)` with
`jaccard = |R ∩ P| / |R ∪ P|` (0 if the union is empty) and
`coverage = |R ∩ P| / |R|`. -/
theorem claim_C1_hard_score_formula (nlp : NLP) (v a : List PyText)
    (hv : v ≠ []) (ha : a ≠ []) :
    (flatTokens nlp v = [] → calculate_hard_skills_score nlp v a = 10) ∧
    (flatTokens nlp v ≠ [] → flatTokens nlp a = [] →
      calculate_hard_skills_score nlp v a = 0) ∧
    (flatTokens nlp v ≠ [] → flatTokens nlp a ≠ [] →
      calculate_hard_skills_score nlp v a =
        round2 (((((flatTokens nlp v).toFinset ∩ (flatTokens nlp a).toFinset).card : ℚ) /
              ((flatTokens nlp v).toFinset.card : ℚ) * 0.6 +
            (if ((flatTokens nlp v).toFinset ∪ (flatTokens nlp a).toFinset).card = 0 then 0
              else ((((flatTokens nlp v).toFinset ∩ (flatTokens nlp a).toFinset).card : ℚ) /
                (((flatTokens nlp v).toFinset ∪ (flatTokens nlp a).toFinset).card : ℚ))) * 0.4) *
          10)) := by
  refine ⟨fun hvp => hard_score_flat_nil_required nlp v a hv ha hvp,
    fun hvp hap => hard_score_flat_nil_possessed nlp v a hv ha hvp hap,
    fun hvp hap => ?_⟩
  have hR : (flatTokens nlp v).toFinset.Nonempty := (List.toFinset_nonempty_iff _).mpr hvp
  have hU : ((flatTokens nlp v).toFinset ∪ (flatTokens nlp a).toFinset).card ≠ 0 :=
    Nat.pos_iff_ne_zero.mp (Finset.card_pos.mpr (hR.mono Finset.subset_union_left))
  rw [if_neg hU]
  exact hard_score_formula nlp v a hv ha hvp hap

/-- Witness for C1 on the main branch at a concrete input. -/
theorem claim_C1_witness :
    flatTokens simpleNLP [PyText.str "a", PyText.str "b", PyText.str "c"] ≠ [] ∧
    calculate_hard_skills_score simpleNLP [PyText.str "a", PyText.str "b", PyText.str "c"]
        [PyText.str "a", PyText.str "b", PyText.str "c", PyText.str "d"] =
      round2 ((((flatTokens simpleNLP
              [PyText.str "a", PyText.str "b", PyText.str "c"]).toFinset ∩
            (flatTokens simpleNLP
              [PyText.str "a", PyText.str "b", PyText.str "c", PyText.str "d"]).toFinset).card /
            ((flatTokens simpleNLP
              [PyText.str "a", PyText.str "b", PyText.str "c"]).toFinset.card : ℚ) * 0.6 +
          (if ((flatTokens simpleNLP [PyText.str "a", PyText.str "b", PyText.str "c"]).toFinset ∪
              (flatTokens simpleNLP
                [PyText.str "a", PyText.str "b", PyText.str "c", PyText.str "d"]).toFinset).card
              = 0 then 0
            else (((flatTokens simpleNLP
                  [PyText.str "a", PyText.str "b", PyText.str "c"]).toFinset ∩
                (flatTokens simpleNLP
                  [PyText.str "a", PyText.str "b", PyText.str "c",
                    PyText.str "d"]).toFinset).card /
              (((flatTokens simpleNLP [PyText.str "a", PyText.str "b", PyText.str "c"]).toFinset ∪
                (flatTokens simpleNLP
                  [PyText.str "a", PyText.str "b", PyText.str "c",
                    PyText.str "d"]).toFinset).card : ℚ))) * 0.4) * 10) :=
  ⟨by decide,
    (claim_C1_hard_score_formula simpleNLP _ _ (by decide) (by decide)).2.2
      (by decide) (by decide)⟩

/-- C10: on the main branch, equal token sets give exactly 10; when P
strictly contains R the Jaccard term drops strictly below 1 and the
unrounded blend drops strictly below 10. -/
theorem claim_C10_perfect_and_superset (nlp : NLP) (v a : List PyText)
    (hv : v ≠ []) (ha : a ≠ [])
    (hvp : flatTokens nlp v ≠ []) (hap : flatTokens nlp a ≠ []) :
    ((flatTokens nlp v).toFinset = (flatTokens nlp a).toFinset →
      calculate_hard_skills_score nlp v a = 10) ∧
    ((flatTokens nlp v).toFinset ⊂ (flatTokens nlp a).toFinset →
      ((((flatTokens nlp v).toFinset ∩ (flatTokens nlp a).toFinset).card : ℚ) /
          (((flatTokens nlp v).toFinset ∪ (flatTokens nlp a).toFinset).card : ℚ) < 1 ∧
        ((((flatTokens nlp v).toFinset ∩ (flatTokens nlp a).toFinset).card : ℚ) /
            ((flatTokens nlp v).toFinset.card : ℚ) * 0.6 +
          (((flatTokens nlp v).toFinset ∩ (flatTokens nlp a).toFinset).card : ℚ) /
            (((flatTokens nlp v).toFinset ∪ (flatTokens nlp a).toFinset).card : ℚ) * 0.4) * 10
          < 10)) := by
  have hR : (flatTokens nlp v).toFinset.Nonempty := (List.toFinset_nonempty_iff _).mpr hvp
  have hr : 0 < ((flatTokens nlp v).toFinset.card : ℚ) := by
    exact_mod_cast Finset.card_pos.mpr hR
  constructor
  · intro heq
    rw [hard_score_formula nlp v a hv ha hvp hap, ← heq, Finset.inter_self, Finset.union_self,
      div_self (ne_of_gt hr)]
    norm_num
    exact round2_ten
  · intro hsub
    have hinter : (flatTokens nlp v).toFinset ∩ (flatTokens nlp a).toFinset =
        (flatTokens nlp v).toFinset := Finset.inter_eq_left.mpr hsub.subset
    have hunion : (flatTokens nlp v).toFinset ∪ (flatTokens nlp a).toFinset =
        (flatTokens nlp a).toFinset := Finset.union_eq_right.mpr hsub.subset
    have hcard : ((flatTokens nlp v).toFinset.card : ℚ) <
        ((flatTokens nlp a).toFinset.card : ℚ) := by
      exact_mod_cast Finset.card_lt_card hsub
    have hP : 0 < ((flatTokens nlp a).toFinset.card : ℚ) := lt_trans hr hcard
    have hjac : (((flatTokens nlp v).toFinset ∩ (flatTokens nlp a).toFinset).card : ℚ) /
        (((flatTokens nlp v).toFinset ∪ (flatTokens nlp a).toFinset).card : ℚ) < 1 := by
      rw [hinter, hunion, div_lt_one hP]
      exact hcard
    refine ⟨hjac, ?_⟩
    have hcov : (((flatTokens nlp v).toFinset ∩ (flatTokens nlp a).toFinset).card : ℚ) /
        ((flatTokens nlp v).toFinset.card : ℚ) = 1 := by
      rw [hinter, div_self (ne_of_gt hr)]
    rw [hcov]
    nlinarith [hjac]

/-- Witness for C10: equal singleton token sets give a perfect 10. -/
theorem claim_C10_witness :
    (flatTokens simpleNLP [PyText.str "a"]).toFinset =
      (flatTokens simpleNLP [PyText.str "a", PyText.str "a"]).toFinset ∧
    calculate_hard_skills_score simpleNLP [PyText.str "a"]
      [PyText.str "a", PyText.str "a"] = 10 :=
  ⟨by decide,
    (claim_C10_perfect_and_superset simpleNLP [PyText.str "a"] [PyText.str "a", PyText.str "a"]
      (by decide) (by decide) (by decide) (by decide)).1 (by decide)⟩

/-- C2: the composer's `hard_skills_score` is the lexical hard score of the
posting's required hard skills against the candidate's possessed hard
skills; with a declared soft requirement the `soft_skills_score` is the
semantic soft score and `final_score = round(hard*0.8 + soft*0.2, 2)`
(so hard 8.0 and soft 5.0 give 7.40); with no declared soft requirement
`soft_skills_score = 10` and `final_score` equals `hard_skills_score`. -/
theorem claim_C2_composer (nlp : NLP) (m : SemModel) (vd : VacanteData) (ad : AlumnoData) :
    (calculate_matching_score nlp m vd ad).hard_skills_score =
      calculate_hard_skills_score nlp (vd.habilidadesDuras.getD [])
        (parseSkillField (ad.habilidades_tecnicas.getD (SkillField.str ""))) ∧
    (vd.habilidadesBlandas.getD [] ≠ [] →
      (calculate_matching_score nlp m vd ad).soft_skills_score =
        calculate_soft_skills_score nlp m (vd.habilidadesBlandas.getD [])
          (parseSkillField (ad.habilidades_blandas.getD (SkillField.str ""))) ∧
      (calculate_matching_score nlp m vd ad).final_score =
        round2 (calculate_hard_skills_score nlp (vd.habilidadesDuras.getD [])
            (parseSkillField (ad.habilidades_tecnicas.getD (SkillField.str ""))) * 0.8 +
          calculate_soft_skills_score nlp m (vd.habilidadesBlandas.getD [])
            (parseSkillField (ad.habilidades_blandas.getD (SkillField.str ""))) * 0.2)) ∧
    (vd.habilidadesBlandas.getD [] = [] →
      (calculate_matching_score nlp m vd ad).soft_skills_score = 10 ∧
      (calculate_matching_score nlp m vd ad).final_score =
        (calculate_matching_score nlp m vd ad).hard_skills_score) ∧
    (vd.habilidadesBlandas.getD [] ≠ [] →
      calculate_hard_skills_score nlp (vd.habilidadesDuras.getD [])
        (parseSkillField (ad.habilidades_tecnicas.getD (SkillField.str ""))) = 8 →
      calculate_soft_skills_score nlp m (vd.habilidadesBlandas.getD [])
        (parseSkillField (ad.habilidades_blandas.getD (SkillField.str ""))) = 5 →
      (calculate_matching_score nlp m vd ad).final_score = 7.4) := by
  by_cases h : vd.habilidadesBlandas.getD [] = []
  · rw [matching_score_no_soft nlp m vd ad h]
    exact ⟨rfl, fun hne => absurd h hne, fun _ => ⟨rfl, rfl⟩, fun hne => absurd h hne⟩
  · rw [matching_score_with_soft nlp m vd ad h]
    refine ⟨hard_score_round2_fixed nlp _ _,
      fun _ => ⟨soft_score_round2_fixed nlp m _ _, rfl⟩,
      fun he => absurd he h,
      fun _ h8 h5 => ?_⟩
    show round2 (calculate_hard_skills_score nlp (vd.habilidadesDuras.getD [])
        (parseSkillField (ad.habilidades_tecnicas.getD (SkillField.str ""))) * 0.8 +
      calculate_soft_skills_score nlp m (vd.habilidadesBlandas.getD [])
        (parseSkillField (ad.habilidades_blandas.getD (SkillField.str ""))) * 0.2) = 7.4
    rw [h8, h5, show (8 : ℚ) * 0.8 + 5 * 0.2 = ((740 : ℤ) : ℚ) / 100 by norm_num,
      round2_div100]
    norm_num

/-- Witness for C2: a posting with one soft requirement, a candidate with
hard score 8.0 and soft score 5.0, and a final score of exactly 7.40. -/
theorem claim_C2_witness :
    exampleVacanteSoft.habilidadesBlandas.getD [] ≠ [] ∧
    (calculate_matching_score simpleNLP zeroSem exampleVacanteSoft alumnoD).final_score = 7.4 :=
  ⟨by decide,
    (claim_C2_composer simpleNLP zeroSem exampleVacanteSoft alumnoD).2.2.2
      (by decide) alumnoD_hard_eval alumnoD_soft_eval⟩

/-- C9: when the posting declares no soft skills (key absent or empty
list), the composer's output does not depend on the candidate's
`habilidades_blandas` field at all. -/
theorem claim_C9_soft_noninterference (nlp : NLP) (m : SemModel) (vd : VacanteData)
    (ad : AlumnoData) (hb hb' : Option SkillField)
    (h : vd.habilidadesBlandas = Option.none ∨ vd.habilidadesBlandas = Option.some []) :
    calculate_matching_score nlp m vd { ad with habilidades_blandas := hb } =
      calculate_matching_score nlp m vd { ad with habilidades_blandas := hb' } := by
  have hempty : vd.habilidadesBlandas.getD [] = [] := by
    rcases h with h | h <;> simp [h]
  rw [matching_score_no_soft nlp m vd _ hempty, matching_score_no_soft nlp m vd _ hempty]

/-- Witness for C9: two candidates differing only in soft skills receive
identical results from a posting with no soft requirement. -/
theorem claim_C9_witness :
    (exampleVacante.habilidadesBlandas = Option.none ∨
      exampleVacante.habilidadesBlandas = Option.some []) ∧
    calculate_matching_score simpleNLP failSem exampleVacante
        { alumnoA with habilidades_blandas := Option.none } =
      calculate_matching_score simpleNLP failSem exampleVacante
        { alumnoA with habilidades_blandas := Option.some (SkillField.str "liderazgo") } :=
  ⟨Or.inl rfl,
    claim_C9_soft_noninterference simpleNLP failSem exampleVacante alumnoA
      Option.none (Option.some (SkillField.str "liderazgo")) (Or.inl rfl)⟩

/-- Rounding a value in `[0, 10]` yields a valid score. -/
theorem round2_scoreValid {q : ℚ} (h0 : 0 ≤ q) (h10 : q ≤ 10) : scoreValid (round2 q) := by
  refine ⟨round2_nonneg h0, ?_, round2_twoDec q⟩
  have := round2_le_int (n := 10) (by exact_mod_cast h10)
  exact_mod_cast this

/-- The hard score is a valid score. -/
theorem hard_score_scoreValid (nlp : NLP) (v a : List PyText) :
    scoreValid (calculate_hard_skills_score nlp v a) :=
  ⟨(hard_score_bounds nlp v a).1, (hard_score_bounds nlp v a).2, hard_score_twoDec nlp v a⟩

/-- The soft score is a valid score. -/
theorem soft_score_scoreValid (nlp : NLP) (m : SemModel) (v a : List PyText) :
    scoreValid (calculate_soft_skills_score nlp m v a) :=
  ⟨(soft_score_bounds nlp m v a).1, (soft_score_bounds nlp m v a).2,
    soft_score_twoDec nlp m v a⟩

/-- All three fields of the composer's output are valid scores. -/
theorem matching_score_scoreValid (nlp : NLP) (m : SemModel)
    (vd : VacanteData) (ad : AlumnoData) :
    scoreValid (calculate_matching_score nlp m vd ad).hard_skills_score ∧
    scoreValid (calculate_matching_score nlp m vd ad).soft_skills_score ∧
    scoreValid (calculate_matching_score nlp m vd ad).final_score := by
  by_cases h : vd.habilidadesBlandas.getD [] = []
  · rw [matching_score_no_soft nlp m vd ad h]
    exact ⟨hard_score_scoreValid nlp _ _,
      ⟨by norm_num, by norm_num, 1000, by norm_num⟩,
      hard_score_scoreValid nlp _ _⟩
  · rw [matching_score_with_soft nlp m vd ad h]
    obtain ⟨hh0, hh10⟩ := hard_score_bounds nlp (vd.habilidadesDuras.getD [])
      (parseSkillField (ad.habilidades_tecnicas.getD (SkillField.str "")))
    obtain ⟨hs0, hs10⟩ := soft_score_bounds nlp m (vd.habilidadesBlandas.getD [])
      (parseSkillField (ad.habilidades_blandas.getD (SkillField.str "")))
    exact ⟨round2_scoreValid hh0 hh10, round2_scoreValid hs0 hs10,
      round2_scoreValid (by linarith) (by linarith)⟩

/-- A ranked entry carries exactly the three fields of the composer's
output for its candidate. -/
theorem alumnoEntry_fields (nlp : NLP) (m : SemModel) (vd : VacanteData)
    (x : RankedAlumno) (ad : AlumnoData)
    (h : alumnoEntry nlp m vd ad = Option.some x) :
    x.hard_skills_score = (calculate_matching_score nlp m vd ad).hard_skills_score ∧
    x.soft_skills_score = (calculate_matching_score nlp m vd ad).soft_skills_score ∧
    x.final_score = (calculate_matching_score nlp m vd ad).final_score := by
  cases hd : ad.doc_id with
  | none => simp [alumnoEntry, hd] at h
  | some id =>
    by_cases hid : id = ""
    · simp [alumnoEntry, hd, hid] at h
    · simp only [alumnoEntry, hd] at h
      rw [if_neg hid] at h
      obtain rfl := Option.some.inj h
      exact ⟨rfl, rfl, rfl⟩

/-- C6: every score the core returns — from the hard scorer, the soft
scorer, the composer's three fields, and every entry of the ranked list —
is a finite value in `[0, 10]` with at most two decimal digits. -/
theorem claim_C6_scores_bounded :
    (∀ (nlp : NLP) (v a : List PyText), scoreValid (calculate_hard_skills_score nlp v a)) ∧
    (∀ (nlp : NLP) (m : SemModel) (v a : List PyText),
      scoreValid (calculate_soft_skills_score nlp m v a)) ∧
    (∀ (nlp : NLP) (m : SemModel) (vd : VacanteData) (ad : AlumnoData),
      scoreValid (calculate_matching_score nlp m vd ad).hard_skills_score ∧
      scoreValid (calculate_matching_score nlp m vd ad).soft_skills_score ∧
      scoreValid (calculate_matching_score nlp m vd ad).final_score) ∧
    (∀ (nlp : NLP) (m : SemModel) (vd : VacanteData) (alumnos : List AlumnoData),
      ∀ x ∈ match_vacante_with_alumnos nlp m vd alumnos,
        scoreValid x.hard_skills_score ∧ scoreValid x.soft_skills_score ∧
          scoreValid x.final_score) := by
  refine ⟨hard_score_scoreValid, soft_score_scoreValid, matching_score_scoreValid, ?_⟩
  intro nlp m vd alumnos x hx
  rw [match_vacante_with_alumnos] at hx
  have hx' : x ∈ alumnos.filterMap (alumnoEntry nlp m vd) :=
    (sortByScoreDesc_perm (alumnos.filterMap (alumnoEntry nlp m vd))).mem_iff.mp hx
  rcases List.mem_filterMap.mp hx' with ⟨ad, _, hentry⟩
  obtain ⟨h1, h2, h3⟩ := alumnoEntry_fields nlp m vd x ad hentry
  rw [h1, h2, h3]
  exact matching_score_scoreValid nlp m vd ad

/-- Witness for C6 on a concrete ranked entry. -/
theorem claim_C6_witness :
    rankedB ∈ match_vacante_with_alumnos simpleNLP failSem exampleVacante
      [alumnoA, alumnoB, alumnoC] ∧
    scoreValid rankedB.final_score :=
  ⟨by rw [example_ranking_eval]; simp,
    (claim_C6_scores_bounded.2.2.2 simpleNLP failSem exampleVacante
      [alumnoA, alumnoB, alumnoC] rankedB (by rw [example_ranking_eval]; simp)).2.2⟩

/-- C5: the ranker drops candidates without a truthy identifier, builds one
entry with the composer's scores for each remaining candidate, and returns
them stably sorted by `final_score` descending (ties keep encounter
order); concretely, final scores `[7, 9, 9]` come back as second, third,
first. -/
theorem claim_C5_ranker :
    (∀ (nlp : NLP) (m : SemModel) (vd : VacanteData) (alumnos : List AlumnoData),
      match_vacante_with_alumnos nlp m vd alumnos =
        sortByScoreDesc (alumnos.filterMap (alumnoEntry nlp m vd)) ∧
      (∀ ad : AlumnoData, ad.doc_id = Option.none ∨ ad.doc_id = Option.some "" →
        alumnoEntry nlp m vd ad = Option.none) ∧
      (∀ (ad : AlumnoData) (id : String), ad.doc_id = Option.some id → id ≠ "" →
        alumnoEntry nlp m vd ad = Option.some
          { alumno_id := id
            alumno_nombre := ad.nombre.getD "N/A"
            alumno_correo := ad.correo.getD "N/A"
            hard_skills_score := (calculate_matching_score nlp m vd ad).hard_skills_score
            soft_skills_score := (calculate_matching_score nlp m vd ad).soft_skills_score
            final_score := (calculate_matching_score nlp m vd ad).final_score }) ∧
      List.Perm (match_vacante_with_alumnos nlp m vd alumnos)
        (alumnos.filterMap (alumnoEntry nlp m vd)) ∧
      (match_vacante_with_alumnos nlp m vd alumnos).Pairwise
        (fun u w => w.final_score ≤ u.final_score) ∧
      (∀ s : ℚ,
        (match_vacante_with_alumnos nlp m vd alumnos).filter (fun y => y.final_score = s) =
          (alumnos.filterMap (alumnoEntry nlp m vd)).filter (fun y => y.final_score = s))) ∧
    match_vacante_with_alumnos simpleNLP failSem exampleVacante [alumnoA, alumnoB, alumnoC] =
      [rankedB, rankedC, rankedA] := by
  refine ⟨?_, example_ranking_eval⟩
  intro nlp m vd alumnos
  refine ⟨rfl, ?_, ?_, sortByScoreDesc_perm _, sortByScoreDesc_sorted _,
    fun s => sortByScoreDesc_filter _ s⟩
  · intro ad h
    rcases h with h | h <;> simp [alumnoEntry, h]
  · intro ad id hd hid
    simp only [alumnoEntry, hd]
    rw [if_neg hid]

/-- Witness for C5: a candidate with no identifier is skipped. -/
theorem claim_C5_witness :
    (alumnoNoId.doc_id = Option.none ∨ alumnoNoId.doc_id = Option.some "") ∧
    alumnoEntry simpleNLP failSem exampleVacante alumnoNoId = Option.none :=
  ⟨Or.inl rfl,
    (claim_C5_ranker.1 simpleNLP failSem exampleVacante []).2.1 alumnoNoId (Or.inl rfl)⟩

/-- The applicant batch, characterized through the fold invariant. -/
theorem postulantes_dictGet_closed (nlp : NLP) (m : SemModel) (vd : VacanteData)
    (ps : List Postulacion) (dict : String → Option AlumnoData) (id : String) :
    dictGet id (match_vacante_with_postulantes nlp m vd ps dict) =
      if ps.any (fun p => decide (resolvedId p = Option.some id) && (dict id).isSome) then
        (dict id).map (fun ad => calculate_matching_score nlp m vd ad)
      else Option.none := by
  rw [match_vacante_with_postulantes, postulantes_fold_dictGet]
  rfl

/-- C7: the applicant batch contains exactly one result per identifier some
application resolves to and the candidate mapping contains; applications
with missing or unresolvable references are skipped silently, the rest of
the batch is still processed, and the function is total (no exception). -/
theorem claim_C7_postulantes (nlp : NLP) (m : SemModel) (vd : VacanteData)
    (ps : List Postulacion) (dict : String → Option AlumnoData) :
    (∀ id : String,
      (dictGet id (match_vacante_with_postulantes nlp m vd ps dict)).isSome = true ↔
        ((∃ p ∈ ps, resolvedId p = Option.some id) ∧ (dict id).isSome = true)) ∧
    (∀ (id : String) (ad : AlumnoData), dict id = Option.some ad →
      (∃ p ∈ ps, resolvedId p = Option.some id) →
      dictGet id (match_vacante_with_postulantes nlp m vd ps dict) =
        Option.some (calculate_matching_score nlp m vd ad)) ∧
    (∀ id : String,
      ((∀ p ∈ ps, resolvedId p ≠ Option.some id) ∨ dict id = Option.none) →
      dictGet id (match_vacante_with_postulantes nlp m vd ps dict) = Option.none) := by
  refine ⟨?_, ?_, ?_⟩
  · intro id
    rw [postulantes_dictGet_closed]
    by_cases hany :
        ps.any (fun p => decide (resolvedId p = Option.some id) && (dict id).isSome) = true
    · rw [if_pos hany]
      rcases List.any_eq_true.mp hany with ⟨p, hp, hc⟩
      rcases Bool.and_eq_true_iff.mp hc with ⟨hr, hs⟩
      simp only [Option.isSome_map']
      exact ⟨fun h => ⟨⟨p, hp, of_decide_eq_true hr⟩, h⟩, fun h => h.2⟩
    · rw [if_neg hany]
      simp only [Option.isSome_none, Bool.false_eq_true, false_iff]
      rintro ⟨⟨p, hp, hr⟩, hs⟩
      exact hany (List.any_eq_true.mpr ⟨p, hp, by simp [hr, hs]⟩)
  · rintro id ad had ⟨p, hp, hr⟩
    rw [postulantes_dictGet_closed,
      if_pos (List.any_eq_true.mpr ⟨p, hp, by simp [hr, had]⟩), had]
    rfl
  · intro id h
    rw [postulantes_dictGet_closed, if_neg]
    intro hany
    rcases List.any_eq_true.mp hany with ⟨p, hp, hc⟩
    rcases Bool.and_eq_true_iff.mp hc with ⟨hr, hs⟩
    rcases h with h | h
    · exact h p hp (of_decide_eq_true hr)
    · rw [h] at hs
      exact Bool.false_ne_true hs

/-- Witness for C7: one resolvable application is scored, one application
whose candidate is absent from the mapping is skipped, with no failure. -/
theorem claim_C7_witness :
    exampleDict "id-b" = Option.some alumnoB ∧
    dictGet "id-b" (match_vacante_with_postulantes simpleNLP failSem exampleVacante
        examplePostulaciones exampleDict) =
      Option.some (calculate_matching_score simpleNLP failSem exampleVacante alumnoB) ∧
    dictGet "missing" (match_vacante_with_postulantes simpleNLP failSem exampleVacante
        examplePostulaciones exampleDict) = Option.none :=
  ⟨by decide,
    (claim_C7_postulantes simpleNLP failSem exampleVacante examplePostulaciones
      exampleDict).2.1 "id-b" alumnoB (by decide)
      ⟨{ alumnoID := Option.some (AlumnoRef.docRef "id-b") }, by decide, by decide⟩,
    (claim_C7_postulantes simpleNLP failSem exampleVacante examplePostulaciones
      exampleDict).2.2 "missing" (Or.inr (by decide))⟩

end Vinculacion
